import Mathlib

/-!
Shallow embedding of the danacr/k8s-drone-controller reconcilers.

The repository contains three controller-runtime reconcilers:

* a replica-counted Drone reconciler (`controllers/drone_controller.go`):
  it garbage-collects owned Deployments not named "mydrones", creates the
  canonical Deployment when absent, adjusts its declared replica count, and
  otherwise syncs the observed replica count into the Drone status;
* a pod-per-node Drone reconciler (`src/unnamed/part_002`, first file):
  it looks for a Pod named like the Drone and, when absent, walks the list
  of nodes labelled "node-role.kubernetes.io/drone" against the set of node
  names occupied by Pods of the namespace;
* a Swarm reconciler (`src/unnamed/part_002`, second file): it compares the
  cluster-wide Drone count with `spec.howmany`, creates or deletes one Drone,
  re-lists and persists `status.flyingdrones`.

Each reconciler is embedded as a pure function from an explicit store state
to a triple `(result, write-operations issued, new store state)`.  Reads
from the store are deterministic in the state; write failures are injected
through explicit failure oracles (the Go client may fail on any call).
`RRes.crash` marks executions that dereference a nil pointer or index an
empty slice, which are undefined in the Go program.
Go `int32` values appear as `Int`: the program only copies and compares
them (no arithmetic), so wrap-around is unobservable at realistic list
lengths and is not modelled.
-/

/-- Outcome of one reconciliation: the error component of the returned pair
(`ok` for a nil error, `err` for a non-nil error), or `crash` for an
execution that is undefined in Go (nil dereference / index out of range). -/
inductive RRes
  | ok
  | err
  | crash
deriving DecidableEq

/-! ## Replica-counted Drone reconciler (controllers/drone_controller.go) -/

/-- A Drone record as used by the replica-counted strategy:
`spec.howmany` plus `status.flyingdrones`. -/
structure DroneR where
  name : String
  ns : String
  howMany : Option Int
  flyingDrones : Int
deriving DecidableEq

/-- The fields of an apps/v1 Deployment this controller reads or writes.
`ownerDrone` is the controller-owner reference name indexed under
".metadata.controller"; `image` stands for the pod-template fields set by
`buildDeployment` and never touched afterwards. -/
structure Deployment where
  name : String
  ns : String
  ownerDrone : Option String
  specReplicas : Option Int
  statusReplicas : Int
  image : String
deriving DecidableEq

/-- Store write calls issued by the replica-counted reconciler. -/
inductive RWrite
  | createDep (d : Deployment)
  | updateDep (d : Deployment)
  | deleteDep (d : Deployment)
  | statusUpdateDrone (d : DroneR)
deriving DecidableEq

/-- Store state seen by one replica-counted reconciliation request:
the Drone at the request key (none when deleted) and the Deployment list
in listing order. -/
structure RState where
  drone : Option DroneR
  deployments : List Deployment
deriving DecidableEq

/-- Failure oracle for the store writes of the replica-counted reconciler. -/
structure RFail where
  createFails : Bool
  updateFails : Bool
  statusUpdateFails : Bool
  deleteFails : Deployment → Bool

/-- All writes succeed. -/
def noRFail : RFail :=
  { createFails := false, updateFails := false, statusUpdateFails := false,
    deleteFails := fun _ => false }

/-- Objects with the same namespace and name denote the same store key. -/
def sameKey (p q : Deployment) : Bool :=
  decide (p.ns = q.ns ∧ p.name = q.name)

/-- Effect of a successful `Delete` call: the object with that key is gone. -/
def removeByKey (p : Deployment) (store : List Deployment) : List Deployment :=
  store.filter (fun q => !(sameKey p q))

/-- Effect of a successful `Update` call: the object at that key is replaced. -/
def replaceByKey (d : Deployment) (store : List Deployment) : List Deployment :=
  store.map (fun q => if sameKey d q then d else q)

/-- The owner-index lookup used by `cleanupOwnedResources`: Deployments in
the Drone namespace whose controller-owner is this Drone. -/
def ownedBy (d : DroneR) (p : Deployment) : Bool :=
  decide (p.ns = d.ns ∧ p.ownerDrone = some d.name)

/-- Selector for the canonical Deployment lookup
`ObjectKey{Namespace: Drone.Namespace, Name: "mydrones"}`. -/
def isMyDrones (ns0 : String) (p : Deployment) : Bool :=
  decide (p.ns = ns0 ∧ p.name = "mydrones")

/-- The loop body of `cleanupOwnedResources`: walk the owned list, skip the
Deployment named "mydrones", delete every other one; the first failing
delete returns the error at once (the failed call is still recorded as an
issued write).  Returns (error-is-nil, issued writes, store). -/
def cleanupLoop (fail : Deployment → Bool) :
    List Deployment → List Deployment → Bool × List RWrite × List Deployment
  | [], store => (true, [], store)
  | p :: rest, store =>
    if p.name = "mydrones" then cleanupLoop fail rest store
    else if fail p then (false, [RWrite.deleteDep p], store)
    else
      let r := cleanupLoop fail rest (removeByKey p store)
      (r.1, RWrite.deleteDep p :: r.2.1, r.2.2)

/-- `cleanupOwnedResources`: list the Deployments owned by the Drone
(owner index plus namespace), then run the delete loop over them. -/
def cleanupOwnedResources (fail : Deployment → Bool) (d : DroneR)
    (store : List Deployment) : Bool × List RWrite × List Deployment :=
  cleanupLoop fail (store.filter (ownedBy d)) store

/-- `buildDeployment`: name "mydrones" in the Drone namespace, owner
reference to the Drone, `Replicas: Drone.Spec.HowMany` copied as a pointer
(no defaulting), empty status. -/
def buildDeployment (d : DroneR) : Deployment :=
  { name := "mydrones", ns := d.ns, ownerDrone := some d.name,
    specReplicas := d.howMany, statusReplicas := 0,
    image := "danacr/drone-pod:latest" }

/-- The `expectedReplicas` computation: 1 when `Spec.HowMany` is nil. -/
def expectedReplicasOf (d : DroneR) : Int :=
  match d.howMany with
  | some h => h
  | none => 1

/-- The replica-counted `DroneReconciler.Reconcile`.

Control flow of the source: fetch the Drone (absent: return nil via
`IgnoreNotFound`); run `cleanupOwnedResources` (error: return it); get the
Deployment "mydrones" (absent: build and create it, return); if
`*deployment.Spec.Replicas` differs from `expectedReplicas`, update the
Deployment and return; otherwise copy `deployment.Status.Replicas` into
`Drone.Status.FlyingDrones` and call `Status().Update`.  The source tests
the stale `err` variable after that call (`if r.Client.Status().Update(ctx,
&Drone); err != nil`), so the call's own error can never be returned: the
function ends with a nil error whether or not the status update succeeded. -/
def reconcileReplica (fail : RFail) (s : RState) : RRes × List RWrite × RState :=
  match s.drone with
  | none => (RRes.ok, [], s)
  | some d =>
    let c := cleanupOwnedResources fail.deleteFails d s.deployments
    if c.1 then
      let deps := c.2.2
      match deps.find? (isMyDrones d.ns) with
      | none =>
        let nd := buildDeployment d
        if fail.createFails then
          (RRes.err, c.2.1 ++ [RWrite.createDep nd], { s with deployments := deps })
        else
          (RRes.ok, c.2.1 ++ [RWrite.createDep nd],
            { s with deployments := deps ++ [nd] })
      | some dep =>
        match dep.specReplicas with
        | none => (RRes.crash, c.2.1, { s with deployments := deps })
        | some r =>
          let expectedReplicas := expectedReplicasOf d
          if r ≠ expectedReplicas then
            let dep' := { dep with specReplicas := some expectedReplicas }
            if fail.updateFails then
              (RRes.err, c.2.1 ++ [RWrite.updateDep dep'],
                { s with deployments := deps })
            else
              (RRes.ok, c.2.1 ++ [RWrite.updateDep dep'],
                { s with deployments := replaceByKey dep' deps })
          else
            let d' := { d with flyingDrones := dep.statusReplicas }
            if fail.statusUpdateFails then
              (RRes.ok, c.2.1 ++ [RWrite.statusUpdateDrone d'],
                { s with deployments := deps })
            else
              (RRes.ok, c.2.1 ++ [RWrite.statusUpdateDrone d'],
                { drone := some d', deployments := deps })
    else
      (RRes.err, c.2.1, { s with deployments := c.2.2 })

/-! ## Pod-per-node Drone reconciler (src/unnamed/part_002, first file) -/

/-- A cluster node; `droneRole` says whether it carries the label
"node-role.kubernetes.io/drone" = "drone". -/
structure NodeK where
  name : String
  droneRole : Bool
deriving DecidableEq

/-- The Pod fields this controller reads or writes.  `nodeName` is
`Spec.NodeName` (set by the scheduler; empty on a freshly created Pod);
`nodeSelectorHostname` is the "kubernetes.io/hostname" node selector set by
`buildPod`. -/
structure PodK where
  name : String
  ns : String
  nodeName : String
  nodeSelectorHostname : Option String
  ownerDrone : Option String
deriving DecidableEq

/-- A Drone record as used by the pod-per-node strategy: `status.flying`. -/
structure DroneP where
  name : String
  ns : String
  flying : Bool
deriving DecidableEq

/-- Store state seen by one pod-per-node reconciliation request. -/
structure PState where
  drone : Option DroneP
  pods : List PodK
  nodes : List NodeK
deriving DecidableEq

/-- Store write calls issued by the pod-per-node reconciler. -/
inductive PWrite
  | createPod (p : PodK)
  | updateDrone (d : DroneP)
deriving DecidableEq

/-- `stringInSlice` from the source. -/
def stringInSlice (a : String) : List String → Bool
  | [] => false
  | b :: rest => if b = a then true else stringInSlice a rest

/-- `buildPod`: Pod named like the Drone, in its namespace, owner reference
to the Drone, node selector pinning the chosen node; `Spec.NodeName` is
empty until the scheduler binds the Pod. -/
def buildPod (d : DroneP) (dronenodename : String) : PodK :=
  { name := d.name, ns := d.ns, nodeName := "",
    nodeSelectorHostname := some dronenodename, ownerDrone := some d.name }

/-- The pod-per-node `DroneReconciler.Reconcile`.

Control flow of the source: fetch the Drone (absent: nil error); get the
Pod named like the Drone; when that get reports NotFound, list the nodes
labelled as drone nodes and the Pods of the namespace, collect
`p.Spec.NodeName` of every Pod into the occupied list, and enter
`for _, dronenode := range dronenodes.Items`.  Both branches of the loop
body end in a `return`, so only the first labelled node is ever examined:
if its name is not in the occupied list a Pod is created on it and
`Status.Flying` is set true, otherwise `Status.Flying` is set false.  In
both branches the source then runs `if r.Update(ctx, &Drone); err != nil`,
which tests the stale NotFound error of the Pod get, so both branches
return that non-nil error.  With no labelled node the loop body never runs
and the trailing `if err != nil` returns the NotFound error as well. -/
def podPerNodeReconcile (s : PState) : RRes × List PWrite × PState :=
  match s.drone with
  | none => (RRes.ok, [], s)
  | some d =>
    match s.pods.find? (fun p => decide (p.ns = d.ns ∧ p.name = d.name)) with
    | some _ => (RRes.ok, [], s)
    | none =>
      let dronenodes := s.nodes.filter (fun n => n.droneRole)
      let dronepods := s.pods.filter (fun p => decide (p.ns = d.ns))
      let occupied := dronepods.map (fun p => p.nodeName)
      match dronenodes with
      | [] => (RRes.err, [], s)
      | n0 :: _ =>
        if !(stringInSlice n0.name occupied) then
          let pod := buildPod d n0.name
          let d' := { d with flying := true }
          (RRes.err, [PWrite.createPod pod, PWrite.updateDrone d'],
            { s with pods := s.pods ++ [pod], drone := some d' })
        else
          let d' := { d with flying := false }
          (RRes.err, [PWrite.updateDrone d'], { s with drone := some d' })

/-! ## Swarm reconciler (src/unnamed/part_002, second file) -/

/-- A Drone record as listed by the Swarm reconciler. -/
structure DroneK where
  name : String
  ns : String
deriving DecidableEq

/-- A Swarm record: `spec.howmany` and `status.flyingdrones`. -/
structure SwarmK where
  name : String
  ns : String
  howMany : Option Int
  flyingDrones : Int
deriving DecidableEq

/-- Store state seen by one Swarm reconciliation request: the Swarm at the
request key and the cluster-wide Drone list in listing order. -/
structure SState where
  swarm : Option SwarmK
  drones : List DroneK
deriving DecidableEq

/-- Store write calls issued by the Swarm reconciler. -/
inductive SWrite
  | createDrone (d : DroneK)
  | deleteDrone (ns name : String)
  | updateSwarm (sw : SwarmK)
deriving DecidableEq

/-- Failure oracle for the store writes of the Swarm reconciler. -/
structure SFail where
  createFails : Bool
  deleteFails : Bool
  updateFails : Bool
deriving DecidableEq

/-- All writes succeed. -/
def noSFail : SFail := { createFails := false, deleteFails := false, updateFails := false }

/-- Tail of `SwarmReconciler.Reconcile`: re-list the Drones, write their
count into `swarm.Status.FlyingDrones`, and persist with `r.Update` (whose
error is checked and returned). -/
def swarmFinish (fail : SFail) (sw : SwarmK) (ops : List SWrite) (s : SState) :
    RRes × List SWrite × SState :=
  let sw' := { sw with flyingDrones := (s.drones.length : Int) }
  if fail.updateFails then (RRes.err, ops ++ [SWrite.updateSwarm sw'], s)
  else (RRes.ok, ops ++ [SWrite.updateSwarm sw'], { s with swarm := some sw' })

/-- `SwarmReconciler.Reconcile`.

Control flow of the source: fetch the Swarm (absent: nil error); list all
Drones (no namespace restriction); dereference `*swarm.Spec.HowMany` with
no nil guard (`crash` when `spec.howmany` is unset); if the listed count is
below it, create one Drone with a fresh generated name in the request
namespace (create error returned); if the count exceeds it (the two guards
reuse the same fetched list, so at most one fires), call `r.Delete` for
`drones.Items[0].Name` in the request namespace and discard the returned
error entirely; finally re-list, set `status.flyingdrones` to the new
length and persist.  `drones.Items[0]` on an empty list (possible only for
a negative `howmany`) is a Go panic, modelled as `crash`. -/
def swarmReconcile (fail : SFail) (freshName reqNs : String) (s : SState) :
    RRes × List SWrite × SState :=
  match s.swarm with
  | none => (RRes.ok, [], s)
  | some sw =>
    match sw.howMany with
    | none => (RRes.crash, [], s)
    | some h =>
      let n : Int := s.drones.length
      if n < h then
        let nd : DroneK := { name := freshName, ns := reqNs }
        if fail.createFails then (RRes.err, [SWrite.createDrone nd], s)
        else swarmFinish fail sw [SWrite.createDrone nd]
          { s with drones := s.drones ++ [nd] }
      else if n > h then
        match s.drones with
        | [] => (RRes.crash, [], s)
        | d0 :: _ =>
          let drones' :=
            if fail.deleteFails then s.drones
            else s.drones.filter (fun q => !(decide (q.ns = reqNs ∧ q.name = d0.name)))
          swarmFinish fail sw [SWrite.deleteDrone reqNs d0.name]
            { s with drones := drones' }
      else swarmFinish fail sw [] s

/-! ## Write-classification helpers and concrete states used by the theorems -/

/-- Is this write a `Create` call. -/
def isCreateDep : RWrite → Bool
  | RWrite.createDep _ => true
  | _ => false

/-- Is this write an `Update` call on the Deployment. -/
def isUpdateDep : RWrite → Bool
  | RWrite.updateDep _ => true
  | _ => false

/-- Is this write an update call against the store (`Update` on the
Deployment or `Status().Update` on the Drone). -/
def isUpdateCall : RWrite → Bool
  | RWrite.updateDep _ => true
  | RWrite.statusUpdateDrone _ => true
  | _ => false

/-- Is this write a Drone `Create` call. -/
def isCreateDrone : SWrite → Bool
  | SWrite.createDrone _ => true
  | _ => false

/-- Is this write a Drone `Delete` call. -/
def isDeleteDrone : SWrite → Bool
  | SWrite.deleteDrone _ _ => true
  | _ => false

/-- A Deployment that is deleted by the cleanup loop: any owned one whose
name is not the canonical "mydrones". -/
def staleNameB (p : Deployment) : Bool :=
  decide (p.name ≠ "mydrones")

/-- A well-formed store keys its objects uniquely by (namespace, name). -/
def KeysNodup (l : List Deployment) : Prop :=
  l.Pairwise (fun a b => ¬(a.ns = b.ns ∧ a.name = b.name))

/-- Drone records keyed uniquely by (namespace, name). -/
def DroneKeysNodup (l : List DroneK) : Prop :=
  l.Pairwise (fun a b => ¬(a.ns = b.ns ∧ a.name = b.name))

/-- Pod-per-node state with two labelled nodes of which only the second is
free: Drone "dr" has no Pod yet, and the one Pod of the namespace runs on
node "m1". -/
def c1State : PState :=
  { drone := some { name := "dr", ns := "default", flying := false },
    pods := [{ name := "busy", ns := "default", nodeName := "m1",
               nodeSelectorHostname := none, ownerDrone := none }],
    nodes := [{ name := "m1", droneRole := true },
              { name := "m2", droneRole := true }] }

/-- Replica-strategy steady state: Drone "dr" wants 1 replica and the
canonical Deployment already declares 1. -/
def c2State : RState :=
  { drone := some { name := "dr", ns := "default", howMany := some 1,
                    flyingDrones := 0 },
    deployments := [{ name := "mydrones", ns := "default",
                      ownerDrone := some "dr", specReplicas := some 1,
                      statusReplicas := 0, image := "danacr/drone-pod:latest" }] }

/-- Failure oracle where only the Drone status update fails. -/
def c4RFail : RFail :=
  { createFails := false, updateFails := false, statusUpdateFails := true,
    deleteFails := fun _ => false }

/-- Replica-strategy state in the counts-match branch (so the only write of
the pass is the Drone status update). -/
def c4RState : RState :=
  { drone := some { name := "dr", ns := "default", howMany := some 1,
                    flyingDrones := 0 },
    deployments := [{ name := "mydrones", ns := "default",
                      ownerDrone := some "dr", specReplicas := some 1,
                      statusReplicas := 2, image := "danacr/drone-pod:latest" }] }

/-- Failure oracle where only the Drone delete fails. -/
def c4SFail : SFail :=
  { createFails := false, deleteFails := true, updateFails := false }

/-- Swarm scale-down state: desired 0, one Drone listed. -/
def c4SState : SState :=
  { swarm := some { name := "sw", ns := "default", howMany := some 0,
                    flyingDrones := 0 },
    drones := [{ name := "a", ns := "default" }] }

/-- Replica-strategy state with `spec.howmany` unset and no Deployment. -/
def c5State : RState :=
  { drone := some { name := "dr", ns := "default", howMany := none,
                    flyingDrones := 0 },
    deployments := [] }

/-- Swarm state with Drones in two namespaces: the Swarm of namespace
"default" sees the cluster-wide count 2 although only one Drone exists in
its own namespace. -/
def c9State : SState :=
  { swarm := some { name := "sw", ns := "default", howMany := some 2,
                    flyingDrones := 0 },
    drones := [{ name := "a", ns := "default" }, { name := "b", ns := "other" }] }

/-- Scale-up Swarm state for the C3 witness: one Drone listed, two desired. -/
def c3UpState : SState :=
  { swarm := some { name := "sw", ns := "default", howMany := some 2, flyingDrones := 0 },
    drones := [{ name := "a", ns := "default" }] }

/-- Scale-down Swarm state for the C3 witness: one Drone listed, zero desired. -/
def c3DownState : SState :=
  { swarm := some { name := "sw", ns := "default", howMany := some 0, flyingDrones := 0 },
    drones := [{ name := "a", ns := "default" }] }

/-- Swarm state for the C3 counterexample: the Swarm of namespace
"default" desires zero Drones, but the first Drone in the cluster-wide
listing order lives in namespace "other". -/
def c3XState : SState :=
  { swarm := some { name := "sw", ns := "default", howMany := some 0, flyingDrones := 0 },
    drones := [{ name := "b", ns := "other" }, { name := "a", ns := "default" }] }

/-- Drone with `spec.howmany` = 5 for the C5 witness. -/
def c5Drone : DroneR := { name := "dr", ns := "default", howMany := some 5, flyingDrones := 0 }

/-- State for the C5 witness: the Drone exists, no Deployment does. -/
def c5WState : RState := { drone := some c5Drone, deployments := [] }

/-- Drone with `spec.howmany` = 2 for the C6 witness. -/
def c6Drone : DroneR := { name := "dr", ns := "default", howMany := some 2, flyingDrones := 0 }

/-- Canonical Deployment declaring 5 replicas for the C6 witness. -/
def c6Dep : Deployment :=
  { name := "mydrones", ns := "default", ownerDrone := some "dr",
    specReplicas := some 5, statusReplicas := 0, image := "danacr/drone-pod:latest" }

/-- State for the C6 witness (the spec's scenario 4: declared 5, desired 2). -/
def c6WState : RState := { drone := some c6Drone, deployments := [c6Dep] }

/-- Parent Drone for the C7 witness. -/
def c7Drone : DroneR := { name := "dr", ns := "default", howMany := some 1, flyingDrones := 0 }

/-- Owned Deployment A (stale) for the C7 witness. -/
def c7DepA : Deployment :=
  { name := "a", ns := "default", ownerDrone := some "dr",
    specReplicas := none, statusReplicas := 0, image := "danacr/drone-pod:latest" }

/-- Owned Deployment B (the canonical "mydrones") for the C7 witness. -/
def c7DepB : Deployment :=
  { name := "mydrones", ns := "default", ownerDrone := some "dr",
    specReplicas := some 1, statusReplicas := 0, image := "danacr/drone-pod:latest" }

/-- Owned Deployment C (stale) for the C7 witness. -/
def c7DepC : Deployment :=
  { name := "c", ns := "default", ownerDrone := some "dr",
    specReplicas := none, statusReplicas := 0, image := "danacr/drone-pod:latest" }

/-- Store owning units A, B, C of which only B matches. -/
def c7Store : List Deployment := [c7DepA, c7DepB, c7DepC]

/-- Delete-failure oracle that fails exactly on unit A. -/
def c7FailA : Deployment → Bool := fun q => decide (q.name = "a")

/-- Empty replica-strategy state whose Drone fetch reports not-found. -/
def c8RWState : RState := { drone := none, deployments := [] }

/-- Empty Swarm state whose Swarm fetch reports not-found. -/
def c8SWState : SState := { swarm := none, drones := [] }

/-- Empty pod-per-node state whose Drone fetch reports not-found. -/
def c8PWState : PState := { drone := none, pods := [], nodes := [] }

/-- Converged Swarm state for the C9 witness: one Drone listed, one desired. -/
def c9WState : SState :=
  { swarm := some { name := "sw", ns := "default", howMany := some 1, flyingDrones := 0 },
    drones := [{ name := "a", ns := "default" }] }

/-- Swarm with `spec.howmany` unset for the C10 witness. -/
def c10WState : SState :=
  { swarm := some { name := "sw", ns := "default", howMany := none, flyingDrones := 0 },
    drones := [] }

/-! ## Theorems -/

/-! ### Helper lemmas about the cleanup loop and the store -/

theorem find?_filter_of_imp (l : List Deployment) (keep pred : Deployment → Bool)
    (h : ∀ x, pred x = true → keep x = true) :
    (l.filter keep).find? pred = l.find? pred := by
  induction l with
  | nil => rfl
  | cons a t ih =>
    cases hk : keep a with
    | false =>
      have hp : pred a = false := by
        cases hp : pred a with
        | false => rfl
        | true => rw [h a hp] at hk; cases hk
      simp [List.filter_cons, hk, List.find?_cons, hp, ih]
    | true =>
      cases hp : pred a with
      | false => simp [List.filter_cons, hk, List.find?_cons, hp, ih]
      | true => simp [List.filter_cons, hk, List.find?_cons, hp]

theorem cleanupLoop_find_mydrones (fail : Deployment → Bool)
    (owned store : List Deployment) (ns0 : String) :
    (cleanupLoop fail owned store).2.2.find? (isMyDrones ns0) =
      store.find? (isMyDrones ns0) := by
  induction owned generalizing store with
  | nil => rfl
  | cons p rest ih =>
    by_cases hname : p.name = "mydrones"
    · simp only [cleanupLoop, if_pos hname]
      exact ih store
    · cases hf : fail p with
      | false =>
        simp only [cleanupLoop, if_neg hname, hf, Bool.false_eq_true, if_false]
        rw [ih (removeByKey p store)]
        apply find?_filter_of_imp
        intro x hx
        have hx' : x.ns = ns0 ∧ x.name = "mydrones" := by
          simpa [isMyDrones] using hx
        have hnk : ¬(p.ns = x.ns ∧ p.name = x.name) := by
          rintro ⟨-, h2⟩
          exact hname (h2.trans hx'.2)
        simp [sameKey, hnk]
      | true =>
        simp only [cleanupLoop, if_neg hname, hf, if_true]

theorem cleanupLoop_ops_deletes (fail : Deployment → Bool)
    (owned store : List Deployment) :
    ∀ op ∈ (cleanupLoop fail owned store).2.1, ∃ q, op = RWrite.deleteDep q := by
  induction owned generalizing store with
  | nil => intro op h; cases h
  | cons p rest ih =>
    intro op h
    by_cases hname : p.name = "mydrones"
    · simp only [cleanupLoop, if_pos hname] at h
      exact ih store op h
    · cases hf : fail p with
      | false =>
        simp only [cleanupLoop, if_neg hname, hf, Bool.false_eq_true, if_false] at h
        rcases List.mem_cons.mp h with h1 | h2
        · exact ⟨p, h1⟩
        · exact ih _ op h2
      | true =>
        simp only [cleanupLoop, if_neg hname, hf, if_true] at h
        rcases List.mem_singleton.mp h with rfl
        exact ⟨p, rfl⟩

theorem cleanupLoop_skip_all (fail : Deployment → Bool)
    (owned store : List Deployment) (h : ∀ p ∈ owned, p.name = "mydrones") :
    cleanupLoop fail owned store = (true, [], store) := by
  induction owned with
  | nil => rfl
  | cons p rest ih =>
    have hp := h p (List.mem_cons_self p rest)
    simp only [cleanupLoop, if_pos hp]
    exact ih (fun q hq => h q (List.mem_cons_of_mem p hq))

theorem cleanupLoop_noFail_ok (owned store : List Deployment) :
    (cleanupLoop (fun _ => false) owned store).1 = true := by
  induction owned generalizing store with
  | nil => rfl
  | cons p rest ih =>
    by_cases hname : p.name = "mydrones"
    · simp only [cleanupLoop, if_pos hname]
      exact ih store
    · simp only [cleanupLoop, if_neg hname, Bool.false_eq_true, if_false]
      exact ih (removeByKey p store)

theorem keysNodup_same : ∀ {l : List Deployment}, KeysNodup l →
    ∀ a ∈ l, ∀ b ∈ l, sameKey a b = true → a = b := by
  intro l
  induction l with
  | nil => intro _ a ha; cases ha
  | cons x t ih =>
    intro h a ha b hb hk
    cases h with
    | cons hx ht =>
      rcases List.mem_cons.mp ha with rfl | ha'
      · rcases List.mem_cons.mp hb with rfl | hb'
        · rfl
        · exact absurd (of_decide_eq_true hk) (hx b hb')
      · rcases List.mem_cons.mp hb with rfl | hb'
        · have hk' := of_decide_eq_true hk
          exact absurd ⟨hk'.1.symm, hk'.2.symm⟩ (hx a ha')
        · exact ih ht a ha' b hb' hk

theorem find?_replaceByKey (ns0 : String) (dep' : Deployment) :
    ∀ {deps : List Deployment} {dep : Deployment},
    deps.find? (isMyDrones ns0) = some dep →
    dep'.ns = ns0 → dep'.name = "mydrones" →
    (replaceByKey dep' deps).find? (isMyDrones ns0) = some dep' := by
  intro deps
  induction deps with
  | nil => intro dep hfind; cases hfind
  | cons q t ih =>
    intro dep hfind hns hname
    cases hq : isMyDrones ns0 q with
    | false =>
      have hq' : ¬(q.ns = ns0 ∧ q.name = "mydrones") := by
        simpa [isMyDrones] using hq
      have hsk : sameKey dep' q = false := by
        have : ¬(dep'.ns = q.ns ∧ dep'.name = q.name) := by
          rintro ⟨h1, h2⟩
          exact hq' ⟨h1.symm.trans hns, h2.symm.trans hname⟩
        simp [sameKey, this]
      rw [List.find?_cons, hq] at hfind
      simp only [replaceByKey, List.map_cons, hsk, if_neg, Bool.false_eq_true,
        if_false, List.find?_cons, hq]
      exact ih hfind hns hname
    | true =>
      have hq' : q.ns = ns0 ∧ q.name = "mydrones" := by
        simpa [isMyDrones] using hq
      have hsk : sameKey dep' q = true := by
        simp [sameKey, hns, hname, hq'.1, hq'.2]
      have hpd : isMyDrones ns0 dep' = true := by
        simp [isMyDrones, hns, hname]
      simp only [replaceByKey, List.map_cons, hsk, if_true, List.find?_cons, hpd]

theorem reconcileReplica_post {s : RState} {d : DroneR} (hd : s.drone = some d) :
    ∃ d1 dep1,
      (reconcileReplica noRFail s).2.2.drone = some d1 ∧
      d1.ns = d.ns ∧ d1.howMany = d.howMany ∧
      (reconcileReplica noRFail s).2.2.deployments.find? (isMyDrones d.ns) = some dep1 ∧
      (dep1.specReplicas = none ∨ dep1.specReplicas = some (expectedReplicasOf d1)) := by
  rcases hfind : (cleanupLoop (fun _ => false) (s.deployments.filter (ownedBy d))
      s.deployments).2.2.find? (isMyDrones d.ns) with _ | dep
  · have hR : reconcileReplica noRFail s =
        (RRes.ok,
          (cleanupLoop (fun _ => false) (s.deployments.filter (ownedBy d))
            s.deployments).2.1 ++ [RWrite.createDep (buildDeployment d)],
          { s with deployments :=
              (cleanupLoop (fun _ => false) (s.deployments.filter (ownedBy d))
                s.deployments).2.2 ++ [buildDeployment d] }) := by
      simp [reconcileReplica, hd, cleanupOwnedResources, noRFail,
        cleanupLoop_noFail_ok, hfind]
    refine ⟨d, buildDeployment d, ?_, rfl, rfl, ?_, ?_⟩
    · rw [hR]; exact hd
    · rw [hR]
      simp [List.find?_append, hfind, buildDeployment, isMyDrones]
    · rcases hhm : d.howMany with _ | h
      · exact Or.inl (by simp [buildDeployment, hhm])
      · exact Or.inr (by simp [buildDeployment, expectedReplicasOf, hhm])
  · have hdep := List.find?_some hfind
    have hdepns : dep.ns = d.ns ∧ dep.name = "mydrones" := by
      simpa [isMyDrones] using hdep
    rcases hrep : dep.specReplicas with _ | r
    · have hR : reconcileReplica noRFail s =
          (RRes.crash,
            (cleanupLoop (fun _ => false) (s.deployments.filter (ownedBy d))
              s.deployments).2.1,
            { s with deployments :=
                (cleanupLoop (fun _ => false) (s.deployments.filter (ownedBy d))
                  s.deployments).2.2 }) := by
        simp [reconcileReplica, hd, cleanupOwnedResources, noRFail,
          cleanupLoop_noFail_ok, hfind, hrep]
      refine ⟨d, dep, ?_, rfl, rfl, ?_, Or.inl hrep⟩
      · rw [hR]; exact hd
      · rw [hR]; exact hfind
    · by_cases hne : r = expectedReplicasOf d
      · have hR : reconcileReplica noRFail s =
            (RRes.ok,
              (cleanupLoop (fun _ => false) (s.deployments.filter (ownedBy d))
                s.deployments).2.1 ++
                  [RWrite.statusUpdateDrone { d with flyingDrones := dep.statusReplicas }],
              { drone := some { d with flyingDrones := dep.statusReplicas },
                deployments :=
                  (cleanupLoop (fun _ => false) (s.deployments.filter (ownedBy d))
                    s.deployments).2.2 }) := by
          simp [reconcileReplica, hd, cleanupOwnedResources, noRFail,
            cleanupLoop_noFail_ok, hfind, hrep, hne]
        refine ⟨{ d with flyingDrones := dep.statusReplicas }, dep, ?_, rfl, rfl, ?_, ?_⟩
        · rw [hR]
        · rw [hR]; exact hfind
        · exact Or.inr (by rw [hrep, hne]; rfl)
      · have hR : reconcileReplica noRFail s =
            (RRes.ok,
              (cleanupLoop (fun _ => false) (s.deployments.filter (ownedBy d))
                s.deployments).2.1 ++
                  [RWrite.updateDep { dep with specReplicas := some (expectedReplicasOf d) }],
              { s with deployments :=
                  (replaceByKey ({ dep with specReplicas := some (expectedReplicasOf d) })
                    ((cleanupLoop (fun _ => false) (s.deployments.filter (ownedBy d))
                      s.deployments).2.2)) }) := by
          simp [reconcileReplica, hd, cleanupOwnedResources, noRFail,
            cleanupLoop_noFail_ok, hfind, hrep, hne]
        refine ⟨d, { dep with specReplicas := some (expectedReplicasOf d) }, ?_, rfl, rfl, ?_, ?_⟩
        · rw [hR]; exact hd
        · rw [hR]
          exact find?_replaceByKey d.ns _ hfind hdepns.1 hdepns.2
        · exact Or.inr rfl

/-- C2 (amended): with all writes succeeding, the second of two consecutive
invocations of the replica-counted Drone reconciler on an unchanged store
issues no Deployment create call and no Deployment update call, whatever
the starting state.  (The second invocation is not write-free: the
counts-match branch still issues its unconditional Drone status update,
which is what refutes the claim as stated in the counterexample.) -/
theorem c2_second_invocation_no_create_update (s : RState) :
    ((reconcileReplica noRFail (reconcileReplica noRFail s).2.2).2.1.filter
      (fun op => isCreateDep op || isUpdateDep op)) = [] := by
  rcases hd : s.drone with _ | d
  · have h1 : reconcileReplica noRFail s = (RRes.ok, [], s) := by
      simp [reconcileReplica, hd]
    rw [h1, h1]
    rfl
  · obtain ⟨d1, dep1, h1, hns, hhm, hfind, hspec⟩ := reconcileReplica_post hd
    set s1 := (reconcileReplica noRFail s).2.2 with hs1
    have hfind1 : (cleanupLoop (fun _ => false) (s1.deployments.filter (ownedBy d1))
        s1.deployments).2.2.find? (isMyDrones d1.ns) = some dep1 := by
      rw [cleanupLoop_find_mydrones, hns, hfind]
    have hdel := cleanupLoop_ops_deletes (fun _ => false)
      (s1.deployments.filter (ownedBy d1)) s1.deployments
    have hdelnil : ((cleanupLoop (fun _ => false) (s1.deployments.filter (ownedBy d1))
        s1.deployments).2.1.filter (fun op => isCreateDep op || isUpdateDep op)) = [] := by
      rw [List.filter_eq_nil_iff]
      intro op hop
      obtain ⟨q, rfl⟩ := hdel op hop
      simp [isCreateDep, isUpdateDep]
    rcases hspec with hnone | hexp
    · have hR : reconcileReplica noRFail s1 =
          (RRes.crash,
            (cleanupLoop (fun _ => false) (s1.deployments.filter (ownedBy d1))
              s1.deployments).2.1,
            { s1 with deployments :=
                (cleanupLoop (fun _ => false) (s1.deployments.filter (ownedBy d1))
                  s1.deployments).2.2 }) := by
        simp [reconcileReplica, h1, cleanupOwnedResources, noRFail,
          cleanupLoop_noFail_ok, hfind1, hnone]
      rw [hR]
      exact hdelnil
    · have hR : reconcileReplica noRFail s1 =
          (RRes.ok,
            (cleanupLoop (fun _ => false) (s1.deployments.filter (ownedBy d1))
              s1.deployments).2.1 ++
                [RWrite.statusUpdateDrone { d1 with flyingDrones := dep1.statusReplicas }],
            { drone := some { d1 with flyingDrones := dep1.statusReplicas },
              deployments :=
                (cleanupLoop (fun _ => false) (s1.deployments.filter (ownedBy d1))
                  s1.deployments).2.2 }) := by
        simp [reconcileReplica, h1, cleanupOwnedResources, noRFail,
          cleanupLoop_noFail_ok, hfind1, hexp]
      rw [hR]
      rw [List.filter_append, hdelnil]
      simp [isCreateDep, isUpdateDep]

/-- C1: the pod-per-node placement does not select the first free eligible
machine.  At `c1State` the eligible machines are m1 and m2 in listing
order, m2 is not occupied, yet the reconciler creates no Pod and sets
`flying = false`: the loop of `Reconcile` returns inside its first
iteration, so only the first listed machine is ever examined, while the
spec requires the first machine not in the occupied set to be selected and
capacity exhaustion to be reported only when every eligible machine is
occupied. -/
theorem c1_placement_examines_only_first_node :
    (c1State.nodes.filter (fun n => n.droneRole)).map (fun n => n.name) = ["m1", "m2"] ∧
    stringInSlice "m2"
      ((c1State.pods.filter (fun p => decide (p.ns = "default"))).map
        (fun p => p.nodeName)) = false ∧
    podPerNodeReconcile c1State =
      (RRes.err, [PWrite.updateDrone { name := "dr", ns := "default", flying := false }],
        { c1State with drone := some { name := "dr", ns := "default", flying := false } }) := by
  decide

/-- C2: counterexample to "zero create and zero update calls on the second
invocation".  Starting from the steady state `c2State` and invoking the
replica-counted reconciler twice with all writes succeeding and no external
change, the second invocation still issues one update call against the
store (the unconditional `Status().Update` of the counts-match branch). -/
theorem c2_second_invocation_update_call :
    ((reconcileReplica noRFail (reconcileReplica noRFail c2State).2.2).2.1.filter
        isUpdateCall).length = 1 ∧
    (reconcileReplica noRFail (reconcileReplica noRFail c2State).2.2).2.1 ≠ [] := by
  decide

/-- C4: two write failures that the spec requires to be surfaced are
silently dropped.  Replica strategy at `c4RState` with a failing Drone
status update: the status update call is issued, fails (the Drone keeps
its old status), and the reconciler still returns a nil error, because
`if r.Client.Status().Update(ctx, &Drone); err != nil` tests the stale
`err` of the earlier Deployment get.  Swarm scale-down at `c4SState` with a
failing Drone delete: the delete call is issued, fails (the Drone list is
unchanged), and the reconciler still returns a nil error, because the
result of `r.Delete` is discarded. -/
theorem c4_write_failures_not_surfaced :
    ((reconcileReplica c4RFail c4RState).1 = RRes.ok ∧
      RWrite.statusUpdateDrone
          { name := "dr", ns := "default", howMany := some 1, flyingDrones := 2 }
        ∈ (reconcileReplica c4RFail c4RState).2.1 ∧
      (reconcileReplica c4RFail c4RState).2.2.drone =
        some { name := "dr", ns := "default", howMany := some 1, flyingDrones := 0 }) ∧
    ((swarmReconcile c4SFail "n" "default" c4SState).1 = RRes.ok ∧
      SWrite.deleteDrone "default" "a" ∈ (swarmReconcile c4SFail "n" "default" c4SState).2.1 ∧
      (swarmReconcile c4SFail "n" "default" c4SState).2.2.drones =
        [{ name := "a", ns := "default" }]) := by
  decide

/-- C5: counterexample to "defaulting to 1 when desiredReplicaCount is
unset".  At `c5State` the Drone has no `spec.howmany` and no Deployment
exists; the pass creates the canonical Deployment, but `buildDeployment`
copies the nil `HowMany` pointer into `Spec.Replicas`, so the created
object declares no replica count at all rather than 1. -/
theorem c5_create_unset_replicas_not_defaulted :
    (reconcileReplica noRFail c5State).2.1 =
      [RWrite.createDep (buildDeployment
        { name := "dr", ns := "default", howMany := none, flyingDrones := 0 })] ∧
    (buildDeployment
      { name := "dr", ns := "default", howMany := none, flyingDrones := 0 }).specReplicas
        = none ∧
    (buildDeployment
      { name := "dr", ns := "default", howMany := none, flyingDrones := 0 }).specReplicas
        ≠ some 1 := by
  decide

/-- C9: counterexample to "observedFlyingCount equals the number of Drone
records that exist for that namespace".  At `c9State` the Swarm of
namespace "default" reconciles successfully and persists
`flyingdrones = 2`, the length of the cluster-wide Drone listing, although
only one Drone record exists in its own namespace: the reconciler lists
Drones with no namespace restriction. -/
theorem c9_status_counts_other_namespaces :
    (swarmReconcile noSFail "n" "default" c9State).1 = RRes.ok ∧
    (swarmReconcile noSFail "n" "default" c9State).2.2.swarm =
      some { name := "sw", ns := "default", howMany := some 2, flyingDrones := 2 } ∧
    ((swarmReconcile noSFail "n" "default" c9State).2.2.drones.filter
        (fun q => decide (q.ns = "default"))).length = 1 ∧
    (2 : Int) ≠ 1 := by
  decide

theorem swarmFinish_ops (fail : SFail) (sw : SwarmK) (ops : List SWrite) (s : SState) :
    (swarmFinish fail sw ops s).2.1 =
      ops ++ [SWrite.updateSwarm { sw with flyingDrones := (s.drones.length : Int) }] := by
  unfold swarmFinish
  split <;> rfl

theorem swarmFinish_drones (fail : SFail) (sw : SwarmK) (ops : List SWrite) (s : SState) :
    (swarmFinish fail sw ops s).2.2.drones = s.drones := by
  unfold swarmFinish
  split <;> rfl

theorem swarmFinish_ok (fail : SFail) (sw : SwarmK) (ops : List SWrite) (s : SState)
    (hok : (swarmFinish fail sw ops s).1 = RRes.ok) :
    ∃ sw', (swarmFinish fail sw ops s).2.2.swarm = some sw' ∧
      sw'.flyingDrones = ((swarmFinish fail sw ops s).2.2.drones.length : Int) := by
  unfold swarmFinish at hok ⊢
  cases hf : fail.updateFails with
  | false =>
    simp only [hf, Bool.false_eq_true, if_false]
    exact ⟨_, rfl, rfl⟩
  | true =>
    rw [if_pos] at hok
    · cases hok
    · exact hf

/-- C8: when the primary fetch reports not-found, each reconciler of the
repository terminates with a nil error, issues no write call, and leaves
the store untouched: both Drone reconcilers and the Swarm reconciler
return `ctrl.Result{}, client.IgnoreNotFound(err)` straight after the
failed get. -/
theorem c8_absent_primary_clean_exit (fr : RFail) (fs : SFail) (fn rn : String)
    (s1 : RState) (s2 : SState) (s3 : PState)
    (h1 : s1.drone = none) (h2 : s2.swarm = none) (h3 : s3.drone = none) :
    reconcileReplica fr s1 = (RRes.ok, [], s1) ∧
    swarmReconcile fs fn rn s2 = (RRes.ok, [], s2) ∧
    podPerNodeReconcile s3 = (RRes.ok, [], s3) := by
  refine ⟨?_, ?_, ?_⟩
  · simp [reconcileReplica, h1]
  · simp [swarmReconcile, h2]
  · simp [podPerNodeReconcile, h3]

/-- C8 witness: the three reconcilers at concrete empty states whose
primary object is absent. -/
theorem c8_absent_primary_clean_exit_witness :
    reconcileReplica noRFail c8RWState = (RRes.ok, [], c8RWState) ∧
    swarmReconcile noSFail "n" "default" c8SWState = (RRes.ok, [], c8SWState) ∧
    podPerNodeReconcile c8PWState = (RRes.ok, [], c8PWState) :=
  c8_absent_primary_clean_exit noRFail noSFail "n" "default"
    c8RWState c8SWState c8PWState rfl rfl rfl

/-- C10: the Swarm reconciler dereferences `*swarm.Spec.HowMany` with no
nil guard: whenever the Swarm exists and `spec.howmany` is unset, the
execution that reaches the count comparison is undefined (a Go
nil-pointer panic), issuing no write; there is no default and no guard. -/
theorem c10_nil_howmany_crashes (fail : SFail) (fn rn : String)
    (s : SState) (sw : SwarmK) (hsw : s.swarm = some sw) (hhm : sw.howMany = none) :
    swarmReconcile fail fn rn s = (RRes.crash, [], s) := by
  simp [swarmReconcile, hsw, hhm]

/-- C10 witness: a concrete Swarm with `spec.howmany` unset. -/
theorem c10_nil_howmany_crashes_witness :
    swarmReconcile noSFail "n" "default" c10WState = (RRes.crash, [], c10WState) :=
  c10_nil_howmany_crashes noSFail "n" "default" c10WState
    { name := "sw", ns := "default", howMany := none, flyingDrones := 0 } rfl rfl

/-- C9 (amended): after every successful Swarm reconciliation the
persisted `observedFlyingCount` equals the number of Drone records in the
reconciler's cluster-wide listing (across all namespaces) at the moment of
the re-list after the corrective action — not the per-namespace count,
which the counterexample shows can differ. -/
theorem c9_observed_equals_cluster_count (fail : SFail) (fn rn : String)
    (s : SState) (sw : SwarmK) (hsw : s.swarm = some sw)
    (hok : (swarmReconcile fail fn rn s).1 = RRes.ok) :
    ∃ sw', (swarmReconcile fail fn rn s).2.2.swarm = some sw' ∧
      sw'.flyingDrones = ((swarmReconcile fail fn rn s).2.2.drones.length : Int) := by
  rcases hhm : sw.howMany with _ | h
  · have hR : swarmReconcile fail fn rn s = (RRes.crash, [], s) := by
      simp [swarmReconcile, hsw, hhm]
    rw [hR] at hok
    cases hok
  · by_cases hlt : (s.drones.length : Int) < h
    · cases hcf : fail.createFails with
      | true =>
        have hR : swarmReconcile fail fn rn s =
            (RRes.err, [SWrite.createDrone { name := fn, ns := rn }], s) := by
          simp [swarmReconcile, hsw, hhm, hlt, hcf]
        rw [hR] at hok
        cases hok
      | false =>
        have hR : swarmReconcile fail fn rn s =
            swarmFinish fail sw [SWrite.createDrone { name := fn, ns := rn }]
              { s with drones := s.drones ++ [{ name := fn, ns := rn }] } := by
          simp [swarmReconcile, hsw, hhm, hlt, hcf]
        rw [hR] at hok ⊢
        exact swarmFinish_ok fail sw _ _ hok
    · by_cases hgt : (s.drones.length : Int) > h
      · rcases hdr : s.drones with _ | ⟨d0, rest⟩
        · have hneg : h < 0 := by
            rw [hdr] at hgt
            simpa using hgt
          have hnlt : ¬((0 : Int) < h) := by
            intro hc
            exact absurd hneg (not_lt_of_gt hc)
          have hR : swarmReconcile fail fn rn s = (RRes.crash, [], s) := by
            simp [swarmReconcile, hsw, hhm, hdr, hnlt, hneg]
          rw [hR] at hok
          cases hok
        · have hlt' : ¬((rest.length : Int) + 1 < h) := by
            rw [hdr] at hlt
            simpa using hlt
          have hgt' : h < (rest.length : Int) + 1 := by
            rw [hdr] at hgt
            simpa using hgt
          have hR : swarmReconcile fail fn rn s =
              swarmFinish fail sw [SWrite.deleteDrone rn d0.name]
                { s with drones :=
                    (if fail.deleteFails then s.drones
                     else s.drones.filter
                       (fun q => !(decide (q.ns = rn ∧ q.name = d0.name)))) } := by
            rw [hdr]
            simp [swarmReconcile, hsw, hhm, hdr, hlt', hgt']
          rw [hR] at hok ⊢
          exact swarmFinish_ok fail sw _ _ hok
      · have hR : swarmReconcile fail fn rn s = swarmFinish fail sw [] s := by
          simp [swarmReconcile, hsw, hhm, hlt, hgt]
        rw [hR] at hok ⊢
        exact swarmFinish_ok fail sw _ _ hok

/-- C9 witness: a converged Swarm (one Drone, one desired) reconciles
successfully and persists a status equal to the listed Drone count. -/
theorem c9_observed_equals_cluster_count_witness :
    ∃ sw', (swarmReconcile noSFail "n" "default" c9WState).2.2.swarm = some sw' ∧
      sw'.flyingDrones =
        (((swarmReconcile noSFail "n" "default" c9WState).2.2.drones.length : Int)) :=
  c9_observed_equals_cluster_count noSFail "n" "default" c9WState
    { name := "sw", ns := "default", howMany := some 1, flyingDrones := 0 }
    rfl (by decide)

theorem cleanup_noop_of_no_stale {s : RState} {d : DroneR}
    (hstale : ∀ p ∈ s.deployments, p.ns = d.ns → p.ownerDrone = some d.name →
      p.name = "mydrones") :
    cleanupLoop (fun _ => false) (s.deployments.filter (ownedBy d)) s.deployments =
      (true, [], s.deployments) := by
  apply cleanupLoop_skip_all
  intro p hp
  rw [List.mem_filter] at hp
  have h2 : p.ns = d.ns ∧ p.ownerDrone = some d.name := by
    simpa [ownedBy] using hp.2
  exact hstale p hp.1 h2.1 h2.2

/-- C5 (amended): in the replica-counted strategy, when no Deployment
named "mydrones" exists in the Drone namespace (and the Drone owns no
stale sets), one reconciliation creates the canonical Deployment with an
owner reference to this Drone and with a declared replica count equal to
the Drone's `spec.howmany` as it stands — `some` count when set, unset
when `spec.howmany` is nil: the created object itself carries no default,
and the counterexample shows the claimed default of 1 is not applied by
this code. -/
theorem c5_create_declares_howmany {s : RState} {d : DroneR}
    (hd : s.drone = some d)
    (hnodep : ∀ p ∈ s.deployments, ¬(p.ns = d.ns ∧ p.name = "mydrones"))
    (hstale : ∀ p ∈ s.deployments, p.ns = d.ns → p.ownerDrone = some d.name →
      p.name = "mydrones") :
    reconcileReplica noRFail s =
      (RRes.ok, [RWrite.createDep (buildDeployment d)],
        { s with deployments := s.deployments ++ [buildDeployment d] }) ∧
    (buildDeployment d).specReplicas = d.howMany ∧
    (buildDeployment d).ownerDrone = some d.name ∧
    (buildDeployment d).name = "mydrones" ∧
    (buildDeployment d).ns = d.ns := by
  have hclean := @cleanup_noop_of_no_stale s d hstale
  have hfind : s.deployments.find? (isMyDrones d.ns) = none := by
    rw [List.find?_eq_none]
    intro x hx
    simpa [isMyDrones] using hnodep x hx
  refine ⟨?_, rfl, rfl, rfl, rfl⟩
  simp [reconcileReplica, hd, cleanupOwnedResources, noRFail, hclean, hfind]

/-- C5 witness: with `spec.howmany` = 5 and no existing set, the created
Deployment declares 5 replicas and carries the owner reference. -/
theorem c5_create_declares_howmany_witness :
    reconcileReplica noRFail c5WState =
      (RRes.ok, [RWrite.createDep (buildDeployment c5Drone)],
        { c5WState with deployments := c5WState.deployments ++ [buildDeployment c5Drone] }) ∧
    (buildDeployment c5Drone).specReplicas = some 5 ∧
    (buildDeployment c5Drone).ownerDrone = some "dr" := by
  have h := @c5_create_declares_howmany c5WState c5Drone rfl
    (by intro p hp; cases hp) (by intro p hp; cases hp)
  exact ⟨h.1, h.2.1, h.2.2.1⟩

/-- C6: in the replica-counted strategy, when the canonical Deployment
exists with a declared replica count different from the Drone's desired
value (and the Drone owns no stale sets), the pass performs exactly one
write: the Deployment update whose only changed field is the declared
replica count; the Drone and its status are untouched, every Deployment at
a different key is untouched, and the pass returns immediately after the
update. -/
theorem c6_update_replicas_only {s : RState} {d : DroneR} {dep : Deployment} {r : Int}
    (hd : s.drone = some d)
    (hstale : ∀ p ∈ s.deployments, p.ns = d.ns → p.ownerDrone = some d.name →
      p.name = "mydrones")
    (hfind : s.deployments.find? (isMyDrones d.ns) = some dep)
    (hrep : dep.specReplicas = some r)
    (hne : r ≠ expectedReplicasOf d) :
    reconcileReplica noRFail s =
      (RRes.ok,
        [RWrite.updateDep ({ dep with specReplicas := some (expectedReplicasOf d) })],
        { s with deployments :=
            (replaceByKey ({ dep with specReplicas := some (expectedReplicasOf d) })
              s.deployments) }) ∧
    (reconcileReplica noRFail s).2.2.drone = s.drone ∧
    ({ dep with specReplicas := some (expectedReplicasOf d) }).name = dep.name ∧
    ({ dep with specReplicas := some (expectedReplicasOf d) }).ns = dep.ns ∧
    ({ dep with specReplicas := some (expectedReplicasOf d) }).ownerDrone = dep.ownerDrone ∧
    ({ dep with specReplicas := some (expectedReplicasOf d) }).statusReplicas
      = dep.statusReplicas ∧
    ({ dep with specReplicas := some (expectedReplicasOf d) }).image = dep.image ∧
    (∀ q ∈ s.deployments, ¬(q.ns = dep.ns ∧ q.name = dep.name) →
      q ∈ (reconcileReplica noRFail s).2.2.deployments) := by
  have hclean := @cleanup_noop_of_no_stale s d hstale
  have hR : reconcileReplica noRFail s =
      (RRes.ok,
        [RWrite.updateDep ({ dep with specReplicas := some (expectedReplicasOf d) })],
        { s with deployments :=
            (replaceByKey ({ dep with specReplicas := some (expectedReplicasOf d) })
              s.deployments) }) := by
    simp [reconcileReplica, hd, cleanupOwnedResources, noRFail, hclean, hfind, hrep, hne]
  refine ⟨hR, ?_, rfl, rfl, rfl, rfl, rfl, ?_⟩
  · rw [hR]
  · intro q hq hk
    rw [hR]
    show q ∈ replaceByKey _ s.deployments
    have hkey : sameKey ({ dep with specReplicas := some (expectedReplicasOf d) }) q
        = false := by
      simp only [sameKey]
      rw [decide_eq_false_iff_not]
      intro hc
      exact hk ⟨hc.1.symm, hc.2.symm⟩
    have : (fun q => if sameKey ({ dep with specReplicas := some (expectedReplicasOf d) }) q
        then ({ dep with specReplicas := some (expectedReplicasOf d) }) else q) q = q := by
      simp [hkey]
    rw [replaceByKey, ← this]
    exact List.mem_map_of_mem _ hq

/-- C6 witness: the spec's scenario 4 — an existing canonical set declaring
5 replicas and a Drone desiring 2 — yields exactly one write, the
Deployment update to 2 declared replicas, with all other fields kept. -/
theorem c6_update_replicas_only_witness :
    reconcileReplica noRFail c6WState =
      (RRes.ok,
        [RWrite.updateDep ({ c6Dep with specReplicas := some (expectedReplicasOf c6Drone) })],
        { c6WState with deployments :=
            (replaceByKey ({ c6Dep with specReplicas := some (expectedReplicasOf c6Drone) })
              c6WState.deployments) }) ∧
    expectedReplicasOf c6Drone = 2 ∧
    c6Dep.specReplicas = some 5 := by
  have h := @c6_update_replicas_only c6WState c6Drone c6Dep 5
    rfl (by decide) (by decide) rfl (by decide)
  exact ⟨h.1, rfl, rfl⟩

/-- C3 (amended): per Swarm invocation the churn is bounded: the write
trace contains at most one Drone create call and at most one Drone delete
call, and never both; under a scale-up trigger (listed count below
`spec.howmany`, writes succeeding) exactly one Drone named by the
generator is created in the request namespace; under a scale-down trigger
(count above `spec.howmany`) exactly one delete call is issued, targeting
the name of the first Drone in the current (cluster-wide) listing order in
the request namespace, so the store loses exactly the listed Drones whose
key is (request namespace, that name) — which is the first listed Drone
itself whenever it lives in the request namespace and no other listed
Drone shares its key, and can be no Drone at all when it lives elsewhere
(the counterexample). -/
theorem c3_swarm_bounded_churn (fail : SFail) (fname reqNs : String) (s : SState) :
    (((swarmReconcile fail fname reqNs s).2.1.filter isCreateDrone).length ≤ 1 ∧
     ((swarmReconcile fail fname reqNs s).2.1.filter isDeleteDrone).length ≤ 1 ∧
     (((swarmReconcile fail fname reqNs s).2.1.filter isCreateDrone) = [] ∨
      ((swarmReconcile fail fname reqNs s).2.1.filter isDeleteDrone) = [])) ∧
    (∀ sw h, s.swarm = some sw → sw.howMany = some h →
      (s.drones.length : Int) < h →
      (swarmReconcile noSFail fname reqNs s).2.1.filter isCreateDrone =
        [SWrite.createDrone { name := fname, ns := reqNs }] ∧
      (swarmReconcile noSFail fname reqNs s).2.1.filter isDeleteDrone = [] ∧
      (swarmReconcile noSFail fname reqNs s).2.2.drones =
        s.drones ++ [{ name := fname, ns := reqNs }]) ∧
    (∀ sw h d0 rest, s.swarm = some sw → sw.howMany = some h →
      s.drones = d0 :: rest → (s.drones.length : Int) > h →
      (swarmReconcile noSFail fname reqNs s).2.1.filter isDeleteDrone =
        [SWrite.deleteDrone reqNs d0.name] ∧
      (swarmReconcile noSFail fname reqNs s).2.1.filter isCreateDrone = [] ∧
      (swarmReconcile noSFail fname reqNs s).2.2.drones =
        (d0 :: rest).filter (fun q => !(decide (q.ns = reqNs ∧ q.name = d0.name)))) ∧
    (∀ sw h d0 rest, s.swarm = some sw → sw.howMany = some h →
      s.drones = d0 :: rest → (s.drones.length : Int) > h →
      d0.ns = reqNs → (∀ q ∈ rest, ¬(q.ns = reqNs ∧ q.name = d0.name)) →
      (swarmReconcile noSFail fname reqNs s).2.1.filter isDeleteDrone =
        [SWrite.deleteDrone reqNs d0.name] ∧
      (swarmReconcile noSFail fname reqNs s).2.1.filter isCreateDrone = [] ∧
      (swarmReconcile noSFail fname reqNs s).2.2.drones = rest) := by
  have hgen : ∀ sw h d0 rest, s.swarm = some sw → sw.howMany = some h →
      s.drones = d0 :: rest → (s.drones.length : Int) > h →
      (swarmReconcile noSFail fname reqNs s).2.1.filter isDeleteDrone =
        [SWrite.deleteDrone reqNs d0.name] ∧
      (swarmReconcile noSFail fname reqNs s).2.1.filter isCreateDrone = [] ∧
      (swarmReconcile noSFail fname reqNs s).2.2.drones =
        (d0 :: rest).filter (fun q => !(decide (q.ns = reqNs ∧ q.name = d0.name))) := by
    intro sw h d0 rest hsw hhm hdr hgt
    have hlt' : ¬((rest.length : Int) + 1 < h) := by
      rw [hdr] at hgt
      intro hc
      have hgt2 : h < (rest.length : Int) + 1 := by simpa using hgt
      exact absurd hc (not_lt_of_gt hgt2)
    have hgt' : h < (rest.length : Int) + 1 := by
      rw [hdr] at hgt
      simpa using hgt
    have hR0 : swarmReconcile noSFail fname reqNs s =
        swarmFinish noSFail sw [SWrite.deleteDrone reqNs d0.name]
          { s with drones :=
              (if noSFail.deleteFails then s.drones
               else s.drones.filter
                 (fun q => !(decide (q.ns = reqNs ∧ q.name = d0.name)))) } := by
      rw [hdr]
      simp [swarmReconcile, hsw, hhm, hdr, hlt', hgt']
    have hdrones : (if noSFail.deleteFails then s.drones
        else s.drones.filter (fun q => !(decide (q.ns = reqNs ∧ q.name = d0.name)))) =
          (d0 :: rest).filter (fun q => !(decide (q.ns = reqNs ∧ q.name = d0.name))) := by
      have hnf : noSFail.deleteFails = false := rfl
      rw [hnf]
      simp only [Bool.false_eq_true, if_false]
      rw [hdr]
    rw [hdrones] at hR0
    rw [hR0, swarmFinish_ops, swarmFinish_drones]
    refine ⟨?_, ?_, rfl⟩
    · simp [isCreateDrone, isDeleteDrone]
    · simp [isCreateDrone, isDeleteDrone]
  refine ⟨?_, ?_, hgen, ?_⟩
  · rcases hsw : s.swarm with _ | sw
    · simp [swarmReconcile, hsw]
    · rcases hhm : sw.howMany with _ | h
      · simp [swarmReconcile, hsw, hhm]
      · by_cases hlt : (s.drones.length : Int) < h
        · cases hcf : fail.createFails with
          | true =>
            have hR : swarmReconcile fail fname reqNs s =
                (RRes.err, [SWrite.createDrone { name := fname, ns := reqNs }], s) := by
              simp [swarmReconcile, hsw, hhm, hlt, hcf]
            rw [hR]
            simp [isCreateDrone, isDeleteDrone]
          | false =>
            have hR : swarmReconcile fail fname reqNs s =
                swarmFinish fail sw [SWrite.createDrone { name := fname, ns := reqNs }]
                  { s with drones := s.drones ++ [{ name := fname, ns := reqNs }] } := by
              simp [swarmReconcile, hsw, hhm, hlt, hcf]
            rw [hR, swarmFinish_ops]
            simp [isCreateDrone, isDeleteDrone]
        · by_cases hgt : (s.drones.length : Int) > h
          · rcases hdr : s.drones with _ | ⟨d0, rest⟩
            · have hneg : h < 0 := by
                rw [hdr] at hgt
                simpa using hgt
              have hnlt : ¬((0 : Int) < h) := by
                intro hc
                exact absurd hneg (not_lt_of_gt hc)
              have hR : swarmReconcile fail fname reqNs s = (RRes.crash, [], s) := by
                simp [swarmReconcile, hsw, hhm, hdr, hnlt, hneg]
              rw [hR]
              simp
            · have hlt' : ¬((rest.length : Int) + 1 < h) := by
                rw [hdr] at hlt
                simpa using hlt
              have hgt' : h < (rest.length : Int) + 1 := by
                rw [hdr] at hgt
                simpa using hgt
              have hR : swarmReconcile fail fname reqNs s =
                  swarmFinish fail sw [SWrite.deleteDrone reqNs d0.name]
                    { s with drones :=
                        (if fail.deleteFails then s.drones
                         else s.drones.filter
                           (fun q => !(decide (q.ns = reqNs ∧ q.name = d0.name)))) } := by
                rw [hdr]
                simp [swarmReconcile, hsw, hhm, hdr, hlt', hgt']
              rw [hR, swarmFinish_ops]
              simp [isCreateDrone, isDeleteDrone]
          · have hR : swarmReconcile fail fname reqNs s = swarmFinish fail sw [] s := by
              simp [swarmReconcile, hsw, hhm, hlt, hgt]
            rw [hR, swarmFinish_ops]
            simp [isCreateDrone, isDeleteDrone]
  · intro sw h hsw hhm hlt
    have hR : swarmReconcile noSFail fname reqNs s =
        swarmFinish noSFail sw [SWrite.createDrone { name := fname, ns := reqNs }]
          { s with drones := s.drones ++ [{ name := fname, ns := reqNs }] } := by
      simp [swarmReconcile, hsw, hhm, hlt, noSFail]
    rw [hR, swarmFinish_ops, swarmFinish_drones]
    refine ⟨?_, ?_, rfl⟩
    · simp [isCreateDrone, isDeleteDrone]
    · simp [isCreateDrone, isDeleteDrone]
  · intro sw h d0 rest hsw hhm hdr hgt hd0 hno
    obtain ⟨hdel, hcre, hdrones⟩ := hgen sw h d0 rest hsw hhm hdr hgt
    refine ⟨hdel, hcre, ?_⟩
    rw [hdrones, List.filter_cons]
    have hc : (!(decide (d0.ns = reqNs ∧ d0.name = d0.name))) = false := by
      simp [hd0]
    rw [hc]
    simp only [Bool.false_eq_true, if_false]
    apply List.filter_eq_self.mpr
    intro q hq
    simp [hno q hq]

/-- C3: counterexample to "scale-down deletes exactly one Drone — the
first in the current listing order".  At `c3XState` the count (2) exceeds
`spec.howmany` (0), so the scale-down branch fires; the listing is
cluster-wide but `r.Delete` is given the name of `drones.Items[0]` (the
Drone "b" of namespace "other") with the request namespace "default": the
delete targets the nonexistent key default/b, so no Drone is deleted — the
first listed Drone survives and the store still holds both Drones — while
the reconciliation completes with a nil error. -/
theorem c3_scale_down_misses_first_listed :
    ((c3XState.drones.length : Int) > 0) ∧
    (swarmReconcile noSFail "n" "default" c3XState).1 = RRes.ok ∧
    SWrite.deleteDrone "default" "b" ∈ (swarmReconcile noSFail "n" "default" c3XState).2.1 ∧
    (swarmReconcile noSFail "n" "default" c3XState).2.2.drones = c3XState.drones ∧
    { name := "b", ns := "other" } ∈ (swarmReconcile noSFail "n" "default" c3XState).2.2.drones ∧
    (swarmReconcile noSFail "n" "default" c3XState).2.2.drones.length = 2 := by
  decide

/-- C3 witness: scale-up at `c3UpState` (one Drone, two desired) creates
exactly one fresh Drone; scale-down at `c3DownState` (one Drone of the
request namespace, zero desired) issues exactly one delete call for the
first listed Drone and removes precisely it. -/
theorem c3_swarm_bounded_churn_witness :
    ((swarmReconcile noSFail "fresh" "default" c3UpState).2.1.filter isCreateDrone =
      [SWrite.createDrone { name := "fresh", ns := "default" }] ∧
     (swarmReconcile noSFail "fresh" "default" c3UpState).2.1.filter isDeleteDrone = [] ∧
     (swarmReconcile noSFail "fresh" "default" c3UpState).2.2.drones =
       c3UpState.drones ++ [{ name := "fresh", ns := "default" }]) ∧
    ((swarmReconcile noSFail "n" "default" c3DownState).2.1.filter isDeleteDrone =
      [SWrite.deleteDrone "default" "a"] ∧
     (swarmReconcile noSFail "n" "default" c3DownState).2.1.filter isCreateDrone = [] ∧
     (swarmReconcile noSFail "n" "default" c3DownState).2.2.drones = []) := by
  refine ⟨?_, ?_⟩
  · exact (c3_swarm_bounded_churn noSFail "fresh" "default" c3UpState).2.1
      { name := "sw", ns := "default", howMany := some 2, flyingDrones := 0 } 2
      rfl rfl (by decide)
  · exact (c3_swarm_bounded_churn noSFail "n" "default" c3DownState).2.2.2
      { name := "sw", ns := "default", howMany := some 0, flyingDrones := 0 } 0
      { name := "a", ns := "default" } []
      rfl rfl rfl (by decide) rfl (by intro q hq; cases hq)

theorem cleanupLoop_noFail_ops (owned store : List Deployment) :
    (cleanupLoop (fun _ => false) owned store).2.1 =
      (owned.filter staleNameB).map RWrite.deleteDep := by
  induction owned generalizing store with
  | nil => rfl
  | cons p rest ih =>
    by_cases hname : p.name = "mydrones"
    · have hst : staleNameB p = false := by simp [staleNameB, hname]
      simp only [cleanupLoop, if_pos hname, List.filter_cons, hst, Bool.false_eq_true,
        if_false]
      exact ih store
    · have hst : staleNameB p = true := by simp [staleNameB, hname]
      simp only [cleanupLoop, if_neg hname, Bool.false_eq_true, if_false,
        List.filter_cons, hst, if_true, List.map_cons]
      rw [ih (removeByKey p store)]

theorem cleanupLoop_noFail_store (owned store : List Deployment) :
    (cleanupLoop (fun _ => false) owned store).2.2 =
      store.filter (fun q => !(owned.any (fun p => staleNameB p && sameKey p q))) := by
  induction owned generalizing store with
  | nil =>
    exact (List.filter_eq_self.mpr (fun a _ => rfl)).symm
  | cons p rest ih =>
    by_cases hname : p.name = "mydrones"
    · have hst : staleNameB p = false := by simp [staleNameB, hname]
      simp only [cleanupLoop, if_pos hname, List.any_cons, hst, Bool.false_and,
        Bool.false_or]
      exact ih store
    · have hst : staleNameB p = true := by simp [staleNameB, hname]
      simp only [cleanupLoop, if_neg hname, Bool.false_eq_true, if_false,
        List.any_cons, hst, Bool.true_and]
      rw [ih (removeByKey p store), removeByKey, List.filter_filter]
      apply List.filter_congr
      intro a _
      cases hA : rest.any (fun p' => staleNameB p' && sameKey p' a) <;>
        cases hS : sameKey p a <;> simp [hA, hS]

theorem cleanupLoop_first_fail (fail : Deployment → Bool) (p : Deployment)
    (hname : ¬p.name = "mydrones") (hf : fail p = true) :
    ∀ (o1 o2 store : List Deployment),
    (∀ q ∈ o1, staleNameB q = true → fail q = false) →
    (cleanupLoop fail (o1 ++ p :: o2) store).1 = false ∧
    (cleanupLoop fail (o1 ++ p :: o2) store).2.1 =
      (o1.filter staleNameB).map RWrite.deleteDep ++ [RWrite.deleteDep p] ∧
    (∀ q, q ∈ store → (∀ a ∈ o1, sameKey a q = false) →
      q ∈ (cleanupLoop fail (o1 ++ p :: o2) store).2.2) := by
  intro o1
  induction o1 with
  | nil =>
    intro o2 store h1
    have hR : cleanupLoop fail ([] ++ p :: o2) store =
        (false, [RWrite.deleteDep p], store) := by
      rw [List.nil_append]
      simp only [cleanupLoop, if_neg hname, hf, if_true]
    rw [hR]
    exact ⟨rfl, by simp, fun q hq _ => hq⟩
  | cons a t ih =>
    intro o2 store h1
    by_cases hna : a.name = "mydrones"
    · have hsa : staleNameB a = false := by simp [staleNameB, hna]
      have ih' := ih o2 store (fun q hq hs => h1 q (List.mem_cons_of_mem a hq) hs)
      have hR : cleanupLoop fail ((a :: t) ++ p :: o2) store =
          cleanupLoop fail (t ++ p :: o2) store := by
        rw [List.cons_append]
        simp only [cleanupLoop, if_pos hna]
      rw [hR]
      refine ⟨ih'.1, ?_, ?_⟩
      · rw [ih'.2.1]
        simp [List.filter_cons, hsa]
      · intro q hq hk
        exact ih'.2.2 q hq (fun b hb => hk b (List.mem_cons_of_mem a hb))
    · have hsa : staleNameB a = true := by simp [staleNameB, hna]
      have hfa : fail a = false := h1 a (List.mem_cons_self a t) hsa
      have ih' := ih o2 (removeByKey a store)
        (fun q hq hs => h1 q (List.mem_cons_of_mem a hq) hs)
      have hR : cleanupLoop fail ((a :: t) ++ p :: o2) store =
          ((cleanupLoop fail (t ++ p :: o2) (removeByKey a store)).1,
           RWrite.deleteDep a ::
             (cleanupLoop fail (t ++ p :: o2) (removeByKey a store)).2.1,
           (cleanupLoop fail (t ++ p :: o2) (removeByKey a store)).2.2) := by
        rw [List.cons_append]
        simp only [cleanupLoop, if_neg hna, hfa, Bool.false_eq_true, if_false]
      rw [hR]
      refine ⟨ih'.1, ?_, ?_⟩
      · rw [ih'.2.1]
        simp [List.filter_cons, hsa]
      · intro q hq hk
        have hq' : q ∈ removeByKey a store := by
          rw [removeByKey, List.mem_filter]
          refine ⟨hq, ?_⟩
          rw [hk a (List.mem_cons_self a t)]
          rfl
        exact ih'.2.2 q hq' (fun b hb => hk b (List.mem_cons_of_mem a hb))

/-- C7: correctness of the owner-based garbage collector
`cleanupOwnedResources` over a store with unique keys.  First part: with
all deletes succeeding, one pass returns no error, issues exactly one
delete per owned Deployment not named "mydrones" (in listing order), and
the resulting store keeps precisely the objects that were not
owned-and-stale — so for owned units A, B, C with only B matching, exactly
A and C are deleted and B remains (see the witness).  Second part: when
the first failing delete is reached (every earlier stale unit deletes
fine), the pass stops there — its write trace ends at the failed call —
returns the error, and the failed unit is still in the store.  Third part:
a cleanup error is surfaced by `Reconcile` as a non-nil returned error. -/
theorem c7_cleanup_correct (d : DroneR) :
    (∀ store, KeysNodup store →
      cleanupOwnedResources (fun _ => false) d store =
        (true, ((store.filter (ownedBy d)).filter staleNameB).map RWrite.deleteDep,
          store.filter (fun q => !(ownedBy d q && staleNameB q)))) ∧
    (∀ (fail : Deployment → Bool) (store o1 o2 : List Deployment) (p : Deployment),
      KeysNodup store →
      store.filter (ownedBy d) = o1 ++ p :: o2 →
      (∀ q ∈ o1, staleNameB q = true → fail q = false) →
      ¬p.name = "mydrones" → fail p = true →
      (cleanupOwnedResources fail d store).1 = false ∧
      (cleanupOwnedResources fail d store).2.1 =
        (o1.filter staleNameB).map RWrite.deleteDep ++ [RWrite.deleteDep p] ∧
      p ∈ (cleanupOwnedResources fail d store).2.2) ∧
    (∀ (fail : Deployment → Bool) (s : RState) (d' : DroneR), s.drone = some d' →
      (cleanupOwnedResources fail d' s.deployments).1 = false →
      (reconcileReplica
        { createFails := false, updateFails := false, statusUpdateFails := false,
          deleteFails := fail } s).1 = RRes.err) := by
  refine ⟨?_, ?_, ?_⟩
  · intro store hnd
    have hops := cleanupLoop_noFail_ops (store.filter (ownedBy d)) store
    have hst := cleanupLoop_noFail_store (store.filter (ownedBy d)) store
    have hok := cleanupLoop_noFail_ok (store.filter (ownedBy d)) store
    have hfc : store.filter (fun q => !((store.filter (ownedBy d)).any
        (fun p => staleNameB p && sameKey p q))) =
        store.filter (fun q => !(ownedBy d q && staleNameB q)) := by
      apply List.filter_congr
      intro q hq
      have hinner : ((store.filter (ownedBy d)).any (fun p => staleNameB p && sameKey p q)) =
          (ownedBy d q && staleNameB q) := by
        cases hb : (ownedBy d q && staleNameB q) with
        | true =>
          rw [Bool.and_eq_true] at hb
          apply List.any_eq_true.mpr
          refine ⟨q, List.mem_filter.mpr ⟨hq, hb.1⟩, ?_⟩
          have hsk : sameKey q q = true := by simp [sameKey]
          rw [hb.2, hsk]
          rfl
        | false =>
          cases hA : (store.filter (ownedBy d)).any (fun p => staleNameB p && sameKey p q) with
          | false => rfl
          | true =>
            exfalso
            obtain ⟨p, hpmem, hpp⟩ := List.any_eq_true.mp hA
            rw [Bool.and_eq_true] at hpp
            have hpstore : p ∈ store := (List.mem_filter.mp hpmem).1
            have hpq : p = q := keysNodup_same hnd p hpstore q hq hpp.2
            subst hpq
            have howned : ownedBy d p = true := (List.mem_filter.mp hpmem).2
            rw [howned, hpp.1] at hb
            cases hb
      rw [hinner]
    have heta : cleanupOwnedResources (fun _ => false) d store =
        ((cleanupLoop (fun _ => false) (store.filter (ownedBy d)) store).1,
         (cleanupLoop (fun _ => false) (store.filter (ownedBy d)) store).2.1,
         (cleanupLoop (fun _ => false) (store.filter (ownedBy d)) store).2.2) := rfl
    rw [heta, hok, hops, hst, hfc]
  · intro fail store o1 o2 p hnd hdec h1 hname hf
    have hsub : KeysNodup (o1 ++ p :: o2) := by
      rw [← hdec]
      exact List.Pairwise.sublist (List.filter_sublist store) hnd
    have hpmem : p ∈ store := by
      have hp : p ∈ store.filter (ownedBy d) := by
        rw [hdec]
        exact List.mem_append_right o1 (List.mem_cons_self p o2)
      exact (List.mem_filter.mp hp).1
    have hkeys : ∀ a ∈ o1, sameKey a p = false := by
      intro a ha
      have hne := (List.pairwise_append.mp hsub).2.2 a ha p (List.mem_cons_self p o2)
      simp [sameKey, hne]
    have hmain := cleanupLoop_first_fail fail p hname hf o1 o2 store h1
    have hcl : cleanupOwnedResources fail d store =
        cleanupLoop fail (o1 ++ p :: o2) store := by
      rw [cleanupOwnedResources, hdec]
    rw [hcl]
    exact ⟨hmain.1, hmain.2.1, hmain.2.2 p hpmem hkeys⟩
  · intro fail s d' hd hfail
    simp [reconcileReplica, hd, hfail]

/-- C7 witness: for owned units A, B, C of which only B is the canonical
"mydrones", a clean pass deletes exactly A and C and keeps B; with a
delete-failure oracle failing on A, the pass stops at A's delete, A stays
in the store, and the reconciler surfaces a non-nil error. -/
theorem c7_cleanup_correct_witness :
    cleanupOwnedResources (fun _ => false) c7Drone c7Store =
      (true, [RWrite.deleteDep c7DepA, RWrite.deleteDep c7DepC], [c7DepB]) ∧
    (cleanupOwnedResources c7FailA c7Drone c7Store).1 = false ∧
    (cleanupOwnedResources c7FailA c7Drone c7Store).2.1 = [RWrite.deleteDep c7DepA] ∧
    c7DepA ∈ (cleanupOwnedResources c7FailA c7Drone c7Store).2.2 ∧
    (reconcileReplica
      { createFails := false, updateFails := false, statusUpdateFails := false,
        deleteFails := c7FailA }
      { drone := some c7Drone, deployments := c7Store }).1 = RRes.err := by
  have h := c7_cleanup_correct c7Drone
  have hnd : KeysNodup c7Store := by
    show List.Pairwise _ c7Store
    decide
  have h2 := h.2.1 c7FailA c7Store [] [c7DepB, c7DepC] c7DepA hnd (by decide)
    (by intro q hq; cases hq) (by decide) (by decide)
  refine ⟨(h.1 c7Store hnd).trans (by decide), h2.1, h2.2.1.trans (by decide), h2.2.2, ?_⟩
  exact h.2.2 c7FailA { drone := some c7Drone, deployments := c7Store } c7Drone rfl h2.1
